import Mathlib

/-!
Shallow embedding of `src/computeSales.py` (a single-file sales-report
pipeline) and proofs of the specified properties.

Numbers are modelled as rationals (`Rat`): Python `float` arithmetic on the
values reachable here is used only through `float()` coercion, `*`, `+` and
fixed-precision rendering, and no specified property depends on binary
rounding.  Console printing and the result file are modelled explicitly as
lists of lines threaded through the functions.
-/

namespace ComputeSales

/-- A JSON value as produced by Python's `json.load`: objects become dicts
(association lists here, with later duplicate keys shadowing earlier ones,
as `json.load` keeps the last binding), arrays become lists, `null` becomes
`None`. -/
inductive Json where
  | null : Json
  | bool (b : Bool) : Json
  | num (q : Rat) : Json
  | str (s : String) : Json
  | arr (xs : List Json) : Json
  | obj (fields : List (String × Json)) : Json

/-- Python exception values, by class: the program's `except` clauses
distinguish `TypeError` and `ValueError` from everything else. -/
inductive PyExc where
  | typeError (msg : String) : PyExc
  | valueError (msg : String) : PyExc
  | overflowError (msg : String) : PyExc
  | otherError (msg : String) : PyExc
deriving DecidableEq, Repr

/-- Whether an exception is caught by `except (TypeError, ValueError)`.
`OverflowError` extends `ArithmeticError`, not `TypeError` or
`ValueError`, so it is not caught. -/
def PyExc.isTVE : PyExc → Bool
  | .typeError _ => true
  | .valueError _ => true
  | .overflowError _ => false
  | .otherError _ => false

/-- Value of a digit string, most significant first. -/
def digitsVal (cs : List Char) : Nat :=
  cs.foldl (fun a c => a * 10 + (c.toNat - 48)) 0

/-- Nonempty and all decimal digits. -/
def isDigits (cs : List Char) : Bool :=
  !cs.isEmpty && cs.all Char.isDigit

/-- Python `s.strip()`: remove leading and trailing whitespace.  (Python
also strips a few rarer control and Unicode space characters; no value in
the specified properties contains them.) -/
def pyStrip (s : String) : String :=
  String.mk (((s.data.dropWhile Char.isWhitespace).reverse.dropWhile Char.isWhitespace).reverse)

/-- Mantissa of a Python float literal: `digits`, `digits.digits`,
`.digits` or `digits.`. -/
def parseMantissa (cs : List Char) : Option Rat :=
  let ip := cs.takeWhile Char.isDigit
  let rest := cs.dropWhile Char.isDigit
  match rest with
  | [] => if ip.isEmpty then none else some (digitsVal ip : Rat)
  | c :: frac =>
    if c = Char.ofNat 46 then
      if frac.all Char.isDigit && (!ip.isEmpty || !frac.isEmpty) then
        some ((digitsVal ip : Rat) + (digitsVal frac : Rat) / ((10 : Rat) ^ frac.length))
      else none
    else none

/-- Ten to an integer power, as a rational. -/
def pow10Z : Int → Rat
  | .ofNat n => (10 : Rat) ^ n
  | .negSucc n => 1 / ((10 : Rat) ^ (n + 1))

/-- Exponent part of a float literal: optional sign then digits. -/
def parseExp (cs : List Char) : Option Int :=
  match cs with
  | [] => none
  | c :: rest =>
    if c = Char.ofNat 43 then (if isDigits rest then some (digitsVal rest : Int) else none)
    else if c = Char.ofNat 45 then (if isDigits rest then some (-(digitsVal rest : Int)) else none)
    else if isDigits cs then some (digitsVal cs : Int) else none

/-- Python `float(s)` on a string: surrounding whitespace stripped, optional
sign, decimal mantissa, optional exponent.  (`inf`, `nan` and digit-group
underscores are not modelled; no catalogue or sales value in the specified
properties uses them.)  `none` models `ValueError`. -/
def parseFloat (s : String) : Option Rat :=
  let cs := (pyStrip s).data
  let signAndRest : Rat × List Char :=
    match cs with
    | c :: rest =>
      if c = Char.ofNat 45 then ((-1 : Rat), rest)
      else if c = Char.ofNat 43 then ((1 : Rat), rest)
      else ((1 : Rat), cs)
    | [] => ((1 : Rat), cs)
  let sign := signAndRest.1
  let body := signAndRest.2
  let mant := body.takeWhile (fun c => c ≠ Char.ofNat 101 && c ≠ Char.ofNat 69)
  let expPart := body.dropWhile (fun c => c ≠ Char.ofNat 101 && c ≠ Char.ofNat 69)
  match expPart with
  | [] => (parseMantissa mant).map (fun m => sign * m)
  | _ :: ecs =>
    match parseMantissa mant, parseExp ecs with
    | some m, some e => some (sign * m * pow10Z e)
    | _, _ => none

/-- Python `float(value)` on a JSON-derived value: numbers pass through,
bools coerce to 0/1, numeric strings parse (`ValueError` otherwise), and
`None`, lists and dicts raise `TypeError`.  This version idealizes numbers
as always in range: Python additionally raises `OverflowError` when the
value is an `int` beyond double range; `pyFloatChecked` below restores that
path, and the totality of `parse_sale_line` is settled against it.  The
two coincide on every number within double range. -/
def pyFloat : Json → Except PyExc Rat
  | .num q => .ok q
  | .bool b => .ok (if b then 1 else 0)
  | .str s =>
    match parseFloat s with
    | some q => .ok q
    | none => .error (.valueError ("could not convert string to float: " ++ s))
  | .null => .error (.typeError "float() argument must be a string or a real number, not NoneType")
  | .arr _ => .error (.typeError "float() argument must be a string or a real number, not list")
  | .obj _ => .error (.typeError "float() argument must be a string or a real number, not dict")

/-- A single quote character, for diagnostic messages. -/
def sq : String := String.singleton (Char.ofNat 39)

/-- Rendering of a rational in Python float `repr` style for the integral
case; composite renderings are abbreviated (no specified property inspects
them). -/
def ratRepr (q : Rat) : String :=
  if q.den = 1 then toString q.num ++ ".0"
  else toString q.num ++ "/" ++ toString q.den

/-- Python `str(value)` on a JSON-derived value.  `str` never raises on
these values, so `_safe_str` in the source coincides with it.  Rendering of
lists and dicts is abbreviated; no specified property inspects it. -/
def pyStr : Json → String
  | .null => "None"
  | .bool true => "True"
  | .bool false => "False"
  | .str s => s
  | .num q => ratRepr q
  | .arr _ => "[...]"
  | .obj _ => "{...}"

/-- `_safe_str`: `str(value)`, catching every exception.  On JSON-derived
values `str` does not raise, so the fallback branch is unreachable. -/
def safe_str (value : Json) : String := pyStr value

/-- Round `num / den` (`den` positive) to the nearest integer, ties to even
(the rounding of `%.2f` formatting). -/
def roundHalfEvenInt (num den : Int) : Int :=
  let f : Int := num.fdiv den
  let r : Int := num - f * den
  if 2 * r < den then f
  else if den < 2 * r then f + 1
  else if f % 2 = 0 then f else f + 1

/-- Left-pad a string with zeros to the given length. -/
def padLeftZeros (s : String) (len : Nat) : String :=
  if len ≤ s.length then s
  else String.mk (List.replicate (len - s.length) (Char.ofNat 48)) ++ s

/-- Python `%.Nf` fixed-point formatting of a rational: round
`q × 10 ^ prec` to the nearest integer (ties to even) and render it with
`prec` digits after the point. -/
def formatFixed (prec : Nat) (q : Rat) : String :=
  let scaled : Int := roundHalfEvenInt (q.num * (10 : Int) ^ prec) (q.den : Int)
  let sign := if scaled < 0 then "-" else ""
  let a := scaled.natAbs
  if prec = 0 then sign ++ toString a
  else sign ++ toString (a / 10 ^ prec) ++ "." ++ padLeftZeros (toString (a % 10 ^ prec)) prec

/-- Strip trailing zeros, and then a trailing point, from a fixed-point
rendering. -/
def stripTrailingZerosDot (s : String) : String :=
  if s.data.contains (Char.ofNat 46) then
    let r := s.data.reverse.dropWhile (fun c => c = Char.ofNat 48)
    let r' :=
      match r with
      | c :: rest => if c = Char.ofNat 46 then rest else r
      | [] => r
    String.mk r'.reverse
  else s

/-- Python `%g` formatting as used for quantities in detail lines; modelled
for the magnitudes arising here (no specified property inspects it). -/
def formatG (q : Rat) : String :=
  if q.den = 1 then toString q.num
  else stripTrailingZerosDot (formatFixed 6 q)

/-- Last binding of a key in a dict's association list (Python dict
construction keeps the last of duplicate keys). -/
def fieldLookup : List (String × Json) → String → Option Json
  | [], _ => none
  | (k, v) :: rest, key =>
    match fieldLookup rest key with
    | some r => some r
    | none => if k = key then some v else none

/-- Python `d.get(key)`: the bound value, or `None` when the key is absent. -/
def dictGet (fields : List (String × Json)) (key : String) : Json :=
  (fieldLookup fields key).getD .null

/-- Python `d.get(key, default)`. -/
def dictGetD (fields : List (String × Json)) (key : String) (dflt : Json) : Json :=
  (fieldLookup fields key).getD dflt

/-- The price map: product name to unit price.  Python's dict is modelled as
an association list with overwriting insertion. -/
abbrev PriceMap := List (String × Rat)

/-- Dict assignment `m[k] = v`: any previous binding of `k` is replaced. -/
def mapInsert (m : PriceMap) (k : String) (v : Rat) : PriceMap :=
  m.filter (fun p => p.1 ≠ k) ++ [(k, v)]

/-- Dict lookup `m[k]` / membership `k in m`. -/
def mapFind (m : PriceMap) (k : String) : Option Rat :=
  (m.find? (fun p => p.1 = k)).map (fun p => p.2)

/-- A validated sale line (`SaleLine` dataclass in the source). -/
structure SaleLine where
  sale_id : String
  sale_date : String
  product : String
  quantity : Rat
deriving DecidableEq, Repr

/-- Diagnostic for a catalogue element that is not an object. -/
def msgCatNotObject (idx : Nat) : String :=
  "[Catalogue row " ++ toString idx ++ "] Invalid item (not an object). Skipping."

/-- Diagnostic for a catalogue element with a missing or invalid title. -/
def msgCatBadTitle (idx : Nat) : String :=
  "[Catalogue row " ++ toString idx ++ "] Missing/invalid " ++ sq ++ "title" ++ sq ++ ". Skipping."

/-- Diagnostic for a catalogue element whose price does not coerce. -/
def msgCatBadPrice (idx : Nat) (title : String) (price : Json) : String :=
  "[Catalogue row " ++ toString idx ++ "] Invalid " ++ sq ++ "price" ++ sq ++ " for title "
    ++ sq ++ title ++ sq ++ ": " ++ safe_str price ++ ". Skipping."

/-- Diagnostic for a sales element that is not an object. -/
def msgSaleNotObject (row_num : Nat) : String :=
  "[Sales row " ++ toString row_num ++ "] Invalid row (not an object). Skipping."

/-- Diagnostic for a sales element with a missing or invalid product. -/
def msgSaleBadProduct (row_num : Nat) : String :=
  "[Sales row " ++ toString row_num ++ "] Missing/invalid " ++ sq ++ "Product" ++ sq ++ ". Skipping."

/-- Diagnostic for a sales element whose quantity does not coerce. -/
def msgSaleBadQty (row_num : Nat) (product : String) (quantity : Json) : String :=
  "[Sales row " ++ toString row_num ++ "] Invalid " ++ sq ++ "Quantity" ++ sq ++ " for product "
    ++ sq ++ product ++ sq ++ ": " ++ safe_str quantity ++ ". Skipping."

/-- Diagnostic for a validated sale whose product is not in the catalogue. -/
def msgNotFound (row_num : Nat) (product : String) : String :=
  "[Sales row " ++ toString row_num ++ "] Product not found in catalogue: "
    ++ sq ++ product ++ sq ++ ". Skipping."

/-- `parse_sale_line(raw, row_num)`: validate and normalize one sales row.
Returns the optional `SaleLine` together with the diagnostics printed, or
propagates an exception not caught by the `except (TypeError, ValueError)`
clauses.  The quantity coercion appears twice because the source repeats the
identical `try float(quantity)` block. -/
def parse_sale_line (raw : Json) (row_num : Nat) :
    Except PyExc (Option SaleLine × List String) :=
  match raw with
  | .obj fields =>
    let product := dictGet fields "Product"
    let quantity := dictGet fields "Quantity"
    match product with
    | .str p =>
      if pyStrip p = "" then .ok (none, [msgSaleBadProduct row_num])
      else
        match pyFloat quantity with
        | .error e =>
          if e.isTVE then .ok (none, [msgSaleBadQty row_num p quantity]) else .error e
        | .ok _ =>
          match pyFloat quantity with
          | .error e =>
            if e.isTVE then .ok (none, [msgSaleBadQty row_num p quantity]) else .error e
          | .ok qty =>
            let sale_id := safe_str (dictGetD fields "SALE_ID" (.str "N/A"))
            let sale_date := safe_str (dictGetD fields "SALE_Date" (.str "N/A"))
            .ok (some ⟨sale_id, sale_date, pyStrip p, qty⟩, [])
    | _ => .ok (none, [msgSaleBadProduct row_num])
  | _ => .ok (none, [msgSaleNotObject row_num])

/-- Loop body of `build_price_map`: accumulates the price map and console
diagnostics over the catalogue elements (1-indexed). -/
def bpmLoop : List Json → Nat → PriceMap → List String →
    Except PyExc (PriceMap × List String)
  | [], _, prices, console => .ok (prices, console)
  | item :: rest, idx, prices, console =>
    match item with
    | .obj fields =>
      match dictGet fields "title" with
      | .str t =>
        if pyStrip t = "" then bpmLoop rest (idx + 1) prices (console ++ [msgCatBadTitle idx])
        else
          match pyFloat (dictGet fields "price") with
          | .ok price_num => bpmLoop rest (idx + 1) (mapInsert prices (pyStrip t) price_num) console
          | .error e =>
            if e.isTVE then
              bpmLoop rest (idx + 1) prices
                (console ++ [msgCatBadPrice idx t (dictGet fields "price")])
            else .error e
      | _ => bpmLoop rest (idx + 1) prices (console ++ [msgCatBadTitle idx])
    | _ => bpmLoop rest (idx + 1) prices (console ++ [msgCatNotObject idx])

/-- `build_price_map(catalogue_json)`: raises `ValueError` when the top-level
value is not a list; otherwise builds the product-to-price map, printing a
diagnostic for each skipped row. -/
def build_price_map (catalogue_json : Json) : Except PyExc (PriceMap × List String) :=
  match catalogue_json with
  | .arr items => bpmLoop items 1 [] []
  | _ => .error (.valueError "Price catalogue JSON must be a list of product objects.")

/-- The per-sale detail line appended for a fully successful row. -/
def detailLine (sale : SaleLine) (unit_price line_total : Rat) : String :=
  "- SALE_ID=" ++ sale.sale_id ++ " | DATE=" ++ sale.sale_date ++ " | PRODUCT="
    ++ sq ++ sale.product ++ sq ++ " | QTY=" ++ formatG sale.quantity
    ++ " | UNIT=" ++ formatFixed 2 unit_price
    ++ " | LINE_TOTAL=" ++ formatFixed 2 line_total

/-- Loop body of `compute_total`: accumulates total, detail lines, valid-row
count and console diagnostics over the sales elements (1-indexed). -/
def ctLoop (prices : PriceMap) : List Json → Nat → Rat → List String → Nat → List String →
    Except PyExc (Rat × List String × Nat × List String)
  | [], _, total, details, valid, console => .ok (total, details, valid, console)
  | raw :: rest, i, total, details, valid, console =>
    match parse_sale_line raw i with
    | .error e => .error e
    | .ok (none, msgs) => ctLoop prices rest (i + 1) total details valid (console ++ msgs)
    | .ok (some sale, msgs) =>
      match mapFind prices sale.product with
      | none =>
        ctLoop prices rest (i + 1) total details (valid + 1)
          (console ++ msgs ++ [msgNotFound i sale.product])
      | some unit_price =>
        let line_total := unit_price * sale.quantity
        ctLoop prices rest (i + 1) (total + line_total)
          (details ++ [detailLine sale unit_price line_total]) (valid + 1) (console ++ msgs)

/-- The first detail line, reporting the count of rows that passed row-level
validation. -/
def validRowsLine (valid : Nat) : String :=
  "VALID_SALES_ROWS: " ++ toString valid

/-- `compute_total(prices, sales_json)`: raises `ValueError` when the
top-level sales value is not a list; otherwise returns
(total, detail lines, console diagnostics), the first detail line being the
valid-row count. -/
def compute_total (prices : PriceMap) (sales_json : Json) :
    Except PyExc (Rat × List String × List String) :=
  match sales_json with
  | .arr rows =>
    match ctLoop prices rows 1 0 [] 0 [] with
    | .ok (total, details, valid, console) => .ok (total, validRowsLine valid :: details, console)
    | .error e => .error e
  | _ => .error (.valueError "Sales record JSON must be a list of sale objects.")

/-- The observable effect of `write_results`: the lines printed to standard
output and the lines written to `SalesResults.txt` (the file is opened in
mode "w", replacing any prior content with exactly these lines). -/
structure WriteEffect where
  stdout : List String
  fileLines : List String
deriving DecidableEq, Repr

/-- `write_results(total, details, elapsed_seconds)`: builds the report line
list (header, details, blank line, total, elapsed), prints every line, and
writes every line to `SalesResults.txt`. -/
def write_results (total : Rat) (details : List String) (elapsed_seconds : Rat) : WriteEffect :=
  let lines := [] ++ ["SALES SUMMARY"] ++ ["============="] ++ details ++ [""]
    ++ ["TOTAL_COST: " ++ formatFixed 2 total]
    ++ ["ELAPSED_SECONDS: " ++ formatFixed 6 elapsed_seconds]
  { stdout := lines, fileLines := lines }

/-- The observable outcome of a run of `main` after both JSON documents have
loaded: process exit code, console lines in print order, and the contents of
`SalesResults.txt` when it was written. -/
structure MainOutcome where
  exitCode : Nat
  console : List String
  written : Option (List String)
deriving DecidableEq, Repr

/-- The console line of an exception that reaches the interpreter uncaught:
the final line of the traceback, class name then message (the process then
exits with status 1). -/
def uncaughtLine : PyExc → String
  | .typeError m => "TypeError: " ++ m
  | .valueError m => "ValueError: " ++ m
  | .overflowError m => "OverflowError: " ++ m
  | .otherError m => "Exception: " ++ m

/-- `main` from the point where both files have loaded and parsed
(`catalogue_json`, `sales_json`), with `elapsed` the measured duration.
`build_price_map` is called outside any try/except, so its `ValueError` for
a non-list catalogue propagates uncaught (exit status 1, traceback line on
the console, no report).  `compute_total` is wrapped in
`except ValueError`, which prints and exits with status 1.  On success the
report is printed and written. -/
def mainAfterLoad (catalogue_json sales_json : Json) (elapsed : Rat) : MainOutcome :=
  match build_price_map catalogue_json with
  | .error e => { exitCode := 1, console := [uncaughtLine e], written := none }
  | .ok (prices, catConsole) =>
    match compute_total prices sales_json with
    | .error (.valueError m) =>
      { exitCode := 1, console := catConsole ++ ["Error processing data: " ++ m], written := none }
    | .error e =>
      { exitCode := 1, console := catConsole ++ [uncaughtLine e], written := none }
    | .ok (total, details, salesConsole) =>
      let effect := write_results total details elapsed
      { exitCode := 0
        console := catConsole ++ salesConsole ++ effect.stdout
        written := some effect.fileLines }

/-! ### Result extractors and row-by-row specification functions -/

/-- The result of `parse_sale_line` (which, as proved below, never
propagates an exception). -/
def parseRes (raw : Json) (row_num : Nat) : Option SaleLine × List String :=
  match parse_sale_line raw row_num with
  | .ok r => r
  | .error _ => (none, [])

/-- The `SaleLine` produced by row-level validation, when it passes. -/
def rowSale (raw : Json) (row_num : Nat) : Option SaleLine :=
  (parseRes raw row_num).1

/-- The contribution of one sales row to the total: `unit_price × quantity`
when the row validates and its product is priced, 0 otherwise. -/
def rowContribution (prices : PriceMap) (raw : Json) (row_num : Nat) : Rat :=
  match rowSale raw row_num with
  | some s =>
    match mapFind prices s.product with
    | some p => p * s.quantity
    | none => 0
  | none => 0

/-- The detail lines contributed by one sales row (at most one). -/
def rowDetail (prices : PriceMap) (raw : Json) (row_num : Nat) : List String :=
  match rowSale raw row_num with
  | some s =>
    match mapFind prices s.product with
    | some p => [detailLine s p (p * s.quantity)]
    | none => []
  | none => []

/-- The console diagnostics contributed by one sales row. -/
def rowConsole (prices : PriceMap) (raw : Json) (row_num : Nat) : List String :=
  (parseRes raw row_num).2 ++
    match rowSale raw row_num with
    | some s => if (mapFind prices s.product).isSome then [] else [msgNotFound row_num s.product]
    | none => []

/-- Sum of row contributions over a list of sales rows starting at the given
row number. -/
def specTotal (prices : PriceMap) : List Json → Nat → Rat
  | [], _ => 0
  | r :: rest, i => rowContribution prices r i + specTotal prices rest (i + 1)

/-- Number of rows passing row-level validation, independent of price
lookup. -/
def specValidCount : List Json → Nat → Nat
  | [], _ => 0
  | r :: rest, i => (if (rowSale r i).isSome then 1 else 0) + specValidCount rest (i + 1)

/-- Concatenated detail lines over a list of sales rows. -/
def specDetails (prices : PriceMap) : List Json → Nat → List String
  | [], _ => []
  | r :: rest, i => rowDetail prices r i ++ specDetails prices rest (i + 1)

/-- Concatenated console diagnostics over a list of sales rows. -/
def specConsole (prices : PriceMap) : List Json → Nat → List String
  | [], _ => []
  | r :: rest, i => rowConsole prices r i ++ specConsole prices rest (i + 1)

/-- The result of `compute_total` on an array of rows (which, as proved
below, never propagates an exception): (total, detail lines, console). -/
def ctResult (prices : PriceMap) (rows : List Json) : Rat × List String × List String :=
  match compute_total prices (.arr rows) with
  | .ok r => r
  | .error _ => (0, [], [])

/-- The (title, price) pair a catalogue element contributes, when it passes
row-level validation. -/
def catRow (item : Json) : Option (String × Rat) :=
  match item with
  | .obj fields =>
    match dictGet fields "title" with
    | .str t =>
      if pyStrip t = "" then none
      else
        match pyFloat (dictGet fields "price") with
        | .ok p => some (pyStrip t, p)
        | .error _ => none
    | _ => none
  | _ => none

/-- The console diagnostics contributed by one catalogue element. -/
def catRowMsg (item : Json) (idx : Nat) : List String :=
  match item with
  | .obj fields =>
    match dictGet fields "title" with
    | .str t =>
      if pyStrip t = "" then [msgCatBadTitle idx]
      else
        match pyFloat (dictGet fields "price") with
        | .ok _ => []
        | .error _ => [msgCatBadPrice idx t (dictGet fields "price")]
    | _ => [msgCatBadTitle idx]
  | _ => [msgCatNotObject idx]

/-- Fold of overwriting insertions of the valid catalogue rows, in order. -/
def specInsertAll (prices : PriceMap) : List Json → PriceMap
  | [] => prices
  | item :: rest =>
    specInsertAll
      (match catRow item with
        | some kv => mapInsert prices kv.1 kv.2
        | none => prices)
      rest

/-- Concatenated catalogue diagnostics starting at the given row number. -/
def specCatConsole : List Json → Nat → List String
  | [], _ => []
  | item :: rest, idx => catRowMsg item idx ++ specCatConsole rest (idx + 1)

/-- The price bound by the last valid catalogue row whose trimmed title is
`t`, if any. -/
def lastPrice (rows : List Json) (t : String) : Option Rat :=
  match rows with
  | [] => none
  | r :: rest =>
    match lastPrice rest t with
    | some p => some p
    | none =>
      match catRow r with
      | some kv => if kv.1 = t then some kv.2 else none
      | none => none

/-- The result of `build_price_map` on an array of items (which, as proved
below, never propagates an exception): (price map, console). -/
def bpmOf (cat : List Json) : PriceMap × List String :=
  match build_price_map (.arr cat) with
  | .ok r => r
  | .error _ => ([], [])

/-! ### Core lemmas -/

/-- `float()` on a JSON-derived value either succeeds or raises an exception
caught by `except (TypeError, ValueError)`. -/
theorem pyFloat_ok_or_tve (j : Json) :
    (∃ q, pyFloat j = .ok q) ∨ ∃ e, pyFloat j = .error e ∧ e.isTVE = true := by
  cases j with
  | null => exact .inr ⟨_, rfl, rfl⟩
  | bool b => exact .inl ⟨_, rfl⟩
  | num q => exact .inl ⟨q, rfl⟩
  | str s =>
    cases h : parseFloat s with
    | some q => exact .inl ⟨q, by simp [pyFloat, h]⟩
    | none =>
      exact .inr ⟨.valueError ("could not convert string to float: " ++ s),
        by simp [pyFloat, h], rfl⟩
  | arr xs => exact .inr ⟨_, rfl, rfl⟩
  | obj fields => exact .inr ⟨_, rfl, rfl⟩

/-- `parse_sale_line` computes `parseRes`: it never propagates an
exception. -/
theorem parse_sale_line_eq (raw : Json) (i : Nat) :
    parse_sale_line raw i = .ok (parseRes raw i) := by
  cases raw with
  | obj fields =>
    cases hprod : dictGet fields "Product" with
    | str p =>
      by_cases hp : pyStrip p = ""
      · simp [parse_sale_line, parseRes, hprod, hp]
      · rcases pyFloat_ok_or_tve (dictGet fields "Quantity") with ⟨q, hq⟩ | ⟨e, he, htve⟩
        · simp [parse_sale_line, parseRes, hprod, hp, hq]
        · simp [parse_sale_line, parseRes, hprod, hp, he, htve]
    | null => simp [parse_sale_line, parseRes, hprod]
    | bool b => simp [parse_sale_line, parseRes, hprod]
    | num q => simp [parse_sale_line, parseRes, hprod]
    | arr xs => simp [parse_sale_line, parseRes, hprod]
    | obj fs => simp [parse_sale_line, parseRes, hprod]
  | null => rfl
  | bool b => rfl
  | num q => rfl
  | str s => rfl
  | arr xs => rfl

/-- `parse_sale_line` never propagates an exception. -/
theorem parse_sale_line_isOk (raw : Json) (i : Nat) :
    ∃ r, parse_sale_line raw i = .ok r :=
  ⟨parseRes raw i, parse_sale_line_eq raw i⟩

/-- The sales loop accumulates exactly the row-by-row specification. -/
theorem ctLoop_spec (prices : PriceMap) (rows : List Json) :
    ∀ (i : Nat) (total : Rat) (details : List String) (valid : Nat) (console : List String),
      ctLoop prices rows i total details valid console =
        .ok (total + specTotal prices rows i,
             details ++ specDetails prices rows i,
             valid + specValidCount rows i,
             console ++ specConsole prices rows i) := by
  induction rows with
  | nil =>
    intro i total details valid console
    simp [ctLoop, specTotal, specDetails, specValidCount, specConsole]
  | cons r rest ih =>
    intro i total details valid console
    rcases hp : parseRes r i with ⟨saleOpt, msgs⟩
    cases saleOpt with
    | none =>
      simp [ctLoop, parse_sale_line_eq r i, hp, ih, specTotal, specDetails,
        specValidCount, specConsole, rowContribution, rowDetail, rowConsole, rowSale,
        add_assoc, List.append_assoc]
    | some sale =>
      cases hf : mapFind prices sale.product with
      | none =>
        simp [ctLoop, parse_sale_line_eq r i, hp, hf, ih, specTotal, specDetails,
          specValidCount, specConsole, rowContribution, rowDetail, rowConsole, rowSale,
          add_assoc, List.append_assoc]
      | some unit_price =>
        simp [ctLoop, parse_sale_line_eq r i, hp, hf, ih, specTotal, specDetails,
          specValidCount, specConsole, rowContribution, rowDetail, rowConsole, rowSale,
          add_assoc, List.append_assoc]

/-- `compute_total` on an array never raises and returns the row-by-row
specification, with the valid-row count line in front. -/
theorem compute_total_arr (prices : PriceMap) (rows : List Json) :
    compute_total prices (.arr rows) =
      .ok (specTotal prices rows 1,
           validRowsLine (specValidCount rows 1) :: specDetails prices rows 1,
           specConsole prices rows 1) := by
  simp [compute_total, ctLoop_spec]

/-- `ctResult` computes the row-by-row specification. -/
theorem ctResult_eq (prices : PriceMap) (rows : List Json) :
    ctResult prices rows =
      (specTotal prices rows 1,
       validRowsLine (specValidCount rows 1) :: specDetails prices rows 1,
       specConsole prices rows 1) := by
  simp [ctResult, compute_total_arr]

/-- The catalogue loop accumulates exactly the row-by-row specification. -/
theorem bpmLoop_spec (items : List Json) :
    ∀ (idx : Nat) (prices : PriceMap) (console : List String),
      bpmLoop items idx prices console =
        .ok (specInsertAll prices items, console ++ specCatConsole items idx) := by
  induction items with
  | nil =>
    intro idx prices console
    simp [bpmLoop, specInsertAll, specCatConsole]
  | cons item rest ih =>
    intro idx prices console
    cases item with
    | obj fields =>
      cases ht : dictGet fields "title" with
      | str t =>
        by_cases hte : pyStrip t = ""
        · simp [bpmLoop, ht, hte, ih, specInsertAll, specCatConsole, catRow, catRowMsg,
            List.append_assoc]
        · rcases pyFloat_ok_or_tve (dictGet fields "price") with ⟨q, hq⟩ | ⟨e, he, htve⟩
          · simp [bpmLoop, ht, hte, hq, ih, specInsertAll, specCatConsole, catRow,
              catRowMsg, List.append_assoc]
          · simp [bpmLoop, ht, hte, he, htve, ih, specInsertAll, specCatConsole, catRow,
              catRowMsg, List.append_assoc]
      | null =>
        simp [bpmLoop, ht, ih, specInsertAll, specCatConsole, catRow, catRowMsg,
          List.append_assoc]
      | bool b =>
        simp [bpmLoop, ht, ih, specInsertAll, specCatConsole, catRow, catRowMsg,
          List.append_assoc]
      | num q =>
        simp [bpmLoop, ht, ih, specInsertAll, specCatConsole, catRow, catRowMsg,
          List.append_assoc]
      | arr xs =>
        simp [bpmLoop, ht, ih, specInsertAll, specCatConsole, catRow, catRowMsg,
          List.append_assoc]
      | obj fs =>
        simp [bpmLoop, ht, ih, specInsertAll, specCatConsole, catRow, catRowMsg,
          List.append_assoc]
    | null =>
      simp [bpmLoop, ih, specInsertAll, specCatConsole, catRow, catRowMsg,
        List.append_assoc]
    | bool b =>
      simp [bpmLoop, ih, specInsertAll, specCatConsole, catRow, catRowMsg,
        List.append_assoc]
    | num q =>
      simp [bpmLoop, ih, specInsertAll, specCatConsole, catRow, catRowMsg,
        List.append_assoc]
    | str s =>
      simp [bpmLoop, ih, specInsertAll, specCatConsole, catRow, catRowMsg,
        List.append_assoc]
    | arr xs =>
      simp [bpmLoop, ih, specInsertAll, specCatConsole, catRow, catRowMsg,
        List.append_assoc]

/-- `build_price_map` on an array never raises and returns the row-by-row
specification. -/
theorem build_price_map_arr (cat : List Json) :
    build_price_map (.arr cat) = .ok (specInsertAll [] cat, specCatConsole cat 1) := by
  simp [build_price_map, bpmLoop_spec]

/-- `bpmOf` computes the row-by-row specification. -/
theorem bpmOf_eq (cat : List Json) :
    bpmOf cat = (specInsertAll [] cat, specCatConsole cat 1) := by
  simp [bpmOf, build_price_map_arr]

/-- Lookup at a cons cell. -/
theorem mapFind_cons (p : String × Rat) (rest : PriceMap) (t : String) :
    mapFind (p :: rest) t = if p.1 = t then some p.2 else mapFind rest t := by
  by_cases h : p.1 = t <;> simp [mapFind, List.find?, h]

/-- Inserting past an entry with a different key keeps the entry. -/
theorem mapInsert_cons_ne (p : String × Rat) (rest : PriceMap) (k : String) (v : Rat)
    (h : p.1 ≠ k) : mapInsert (p :: rest) k v = p :: mapInsert rest k v := by
  simp [mapInsert, List.filter, h]

/-- Inserting over an entry with the same key drops the entry. -/
theorem mapInsert_cons_eq (p : String × Rat) (rest : PriceMap) (k : String) (v : Rat)
    (h : p.1 = k) : mapInsert (p :: rest) k v = mapInsert rest k v := by
  simp [mapInsert, List.filter, h]

/-- Looking up after an overwriting insert. -/
theorem mapFind_mapInsert (m : PriceMap) (k : String) (v : Rat) (t : String) :
    mapFind (mapInsert m k v) t = if t = k then some v else mapFind m t := by
  induction m with
  | nil =>
    by_cases h : t = k
    · subst h; simp [mapFind, mapInsert, List.find?]
    · have h' : k ≠ t := fun hh => h hh.symm
      simp [mapFind, mapInsert, List.find?, h, h']
  | cons p rest ih =>
    by_cases hpk : p.1 = k
    · rw [mapInsert_cons_eq p rest k v hpk, ih, mapFind_cons p rest t]
      by_cases htk : t = k
      · simp [htk]
      · have hpt : p.1 ≠ t := fun hh => htk (hh ▸ hpk)
        simp [htk, hpt]
    · rw [mapInsert_cons_ne p rest k v hpk, mapFind_cons p (mapInsert rest k v) t, ih,
        mapFind_cons p rest t]
      by_cases hpt : p.1 = t
      · have htk : t ≠ k := fun hh => hpk (hpt.trans hh)
        simp [hpt, htk]
      · simp [hpt]

/-- Lookup in the fold of insertions: the last valid binding wins, falling
back to the accumulator. -/
theorem mapFind_specInsertAll (rows : List Json) :
    ∀ (m : PriceMap) (t : String),
      mapFind (specInsertAll m rows) t =
        match lastPrice rows t with
        | some p => some p
        | none => mapFind m t := by
  induction rows with
  | nil => intro m t; simp [specInsertAll, lastPrice]
  | cons r rest ih =>
    intro m t
    cases hc : catRow r with
    | none =>
      simp only [specInsertAll, lastPrice, hc]
      rw [ih]
      cases lastPrice rest t <;> simp
    | some kv =>
      simp only [specInsertAll, lastPrice, hc]
      rw [ih]
      cases hl : lastPrice rest t with
      | some p => simp
      | none =>
        simp only
        rw [mapFind_mapInsert]
        by_cases hk : t = kv.1
        · subst hk; simp
        · have hk' : kv.1 ≠ t := fun hh => hk hh.symm
          simp [hk, hk']

/-- A valid catalogue row prints nothing. -/
theorem catRowMsg_of_valid (r : Json) (idx : Nat) (h : (catRow r).isSome) :
    catRowMsg r idx = [] := by
  cases r with
  | obj fields =>
    cases ht : dictGet fields "title" with
    | str t =>
      by_cases hte : pyStrip t = ""
      · simp [catRow, ht, hte] at h
      · rcases pyFloat_ok_or_tve (dictGet fields "price") with ⟨q, hq⟩ | ⟨e, he, _⟩
        · simp [catRowMsg, ht, hte, hq]
        · simp [catRow, ht, hte, he] at h
    | null => simp [catRow, ht] at h
    | bool b => simp [catRow, ht] at h
    | num q => simp [catRow, ht] at h
    | arr xs => simp [catRow, ht] at h
    | obj fs => simp [catRow, ht] at h
  | null => simp [catRow] at h
  | bool b => simp [catRow] at h
  | num q => simp [catRow] at h
  | str s => simp [catRow] at h
  | arr xs => simp [catRow] at h

/-- A catalogue whose rows are all valid prints nothing. -/
theorem specCatConsole_of_valid (rows : List Json) :
    ∀ idx, (∀ r ∈ rows, (catRow r).isSome) → specCatConsole rows idx = [] := by
  induction rows with
  | nil => intro idx _; rfl
  | cons r rest ih =>
    intro idx h
    simp only [specCatConsole]
    rw [catRowMsg_of_valid r idx (h r (by simp)), ih (idx + 1) (fun x hx => h x (by simp [hx]))]
    rfl

/-- Lookup in the empty price map always fails. -/
theorem mapFind_nil (k : String) : mapFind [] k = none := rfl

/-- With an empty price map every row contributes zero. -/
theorem specTotal_nil_prices (rows : List Json) : ∀ i, specTotal [] rows i = 0 := by
  induction rows with
  | nil => intro i; rfl
  | cons r rest ih =>
    intro i
    simp only [specTotal, ih]
    cases h : rowSale r i <;> simp [rowContribution, h, mapFind_nil]

/-- With an empty price map no detail line is produced. -/
theorem specDetails_nil_prices (rows : List Json) : ∀ i, specDetails [] rows i = [] := by
  induction rows with
  | nil => intro i; rfl
  | cons r rest ih =>
    intro i
    simp only [specDetails, ih]
    cases h : rowSale r i <;> simp [rowDetail, h, mapFind_nil]

/-- Every diagnostic of a row appears among the loop's diagnostics. -/
theorem rowConsole_subset_specConsole (prices : PriceMap) (rows : List Json) :
    ∀ (i j : Nat) (x : Json), rows[j]? = some x →
      ∀ m ∈ rowConsole prices x (i + j), m ∈ specConsole prices rows i := by
  induction rows with
  | nil => intro i j x hx; simp at hx
  | cons r rest ih =>
    intro i j x hx m hm
    cases j with
    | zero =>
      simp only [List.getElem?_cons_zero, Option.some.injEq] at hx
      subst hx
      simp only [specConsole, List.mem_append]
      exact .inl (by simpa using hm)
    | succ j' =>
      simp only [List.getElem?_cons_succ] at hx
      simp only [specConsole, List.mem_append]
      refine .inr (ih (i + 1) j' x hx m ?_)
      have : i + 1 + j' = i + (j' + 1) := by omega
      rw [this]
      exact hm

/-- On a row whose fields validate, `parse_sale_line` succeeds, with the
trimmed product, the coerced quantity, and the stringified optional
fields. -/
theorem parseRes_success (fields : List (String × Json)) (i : Nat) (p : String) (q : Rat)
    (hprod : dictGet fields "Product" = .str p) (hne : pyStrip p ≠ "")
    (hq : pyFloat (dictGet fields "Quantity") = .ok q) :
    parseRes (.obj fields) i =
      (some ⟨safe_str (dictGetD fields "SALE_ID" (.str "N/A")),
             safe_str (dictGetD fields "SALE_Date" (.str "N/A")), pyStrip p, q⟩, []) := by
  simp [parseRes, parse_sale_line, hprod, hne, hq]

/-- Conversely, a successful parse fixes the optional fields to the
stringified lookups with default `"N/A"`. -/
theorem parseRes_some_fields (fields : List (String × Json)) (i : Nat) (s : SaleLine)
    (msgs : List String) (h : parseRes (.obj fields) i = (some s, msgs)) :
    s.sale_id = safe_str (dictGetD fields "SALE_ID" (.str "N/A")) ∧
    s.sale_date = safe_str (dictGetD fields "SALE_Date" (.str "N/A")) := by
  cases hprod : dictGet fields "Product" with
  | str p =>
    by_cases hp : pyStrip p = ""
    · simp [parseRes, parse_sale_line, hprod, hp] at h
    · rcases pyFloat_ok_or_tve (dictGet fields "Quantity") with ⟨q, hq⟩ | ⟨e, he, htve⟩
      · rw [parseRes_success fields i p q hprod hp hq] at h
        injection h with h1 h2
        injection h1 with h3
        rw [← h3]
        exact ⟨rfl, rfl⟩
      · simp [parseRes, parse_sale_line, hprod, hp, he, htve] at h
  | null => simp [parseRes, parse_sale_line, hprod] at h
  | bool b => simp [parseRes, parse_sale_line, hprod] at h
  | num q => simp [parseRes, parse_sale_line, hprod] at h
  | arr xs => simp [parseRes, parse_sale_line, hprod] at h
  | obj fs => simp [parseRes, parse_sale_line, hprod] at h

/-- Dropping the last report line removes exactly the elapsed-time line. -/
theorem written_dropLast (total : Rat) (details : List String) (e : Rat) :
    (write_results total details e).fileLines.dropLast
      = [] ++ ["SALES SUMMARY"] ++ ["============="] ++ details ++ [""]
        ++ ["TOTAL_COST: " ++ formatFixed 2 total] :=
  List.dropLast_concat

/-! ### Claims -/

/-- C1: for every catalogue and sales input whose top-level values are
arrays, the total returned by `compute_total` equals the sum of
`unit_price × quantity` over exactly the sales rows that parse as a
`SaleLine` and whose trimmed product is a key of the price map
(`specTotal` sums `rowContribution`, which is zero on rows failing
validation or lookup). -/
theorem claim_C1_total_is_filtered_sum (cat rows : List Json) :
    ∃ details console,
      compute_total (bpmOf cat).1 (.arr rows) =
        .ok (specTotal (bpmOf cat).1 rows 1, details, console) :=
  ⟨_, _, compute_total_arr _ _⟩

/-- C2: for every sales array input, the first detail line returned by
`compute_total` is `VALID_SALES_ROWS: <count>` where the count is the
number of rows passing row-level validation (`specValidCount` does not
depend on the price map, so lookup failures do not decrement it). -/
theorem claim_C2_first_line_valid_count (prices : PriceMap) (rows : List Json) :
    (ctResult prices rows).2.1.head? =
      some ("VALID_SALES_ROWS: " ++ toString (specValidCount rows 1)) := by
  rw [ctResult_eq]
  rfl

/-- C3: when the catalogue document parses but is not an array, the run
exits with code 1, the console carries the descriptive `ValueError`
message, and no `SalesResults.txt` is written. -/
theorem claim_C3_nonarray_catalogue_fatal (cat sales : Json) (elapsed : Rat)
    (h : ∀ xs, cat ≠ Json.arr xs) :
    mainAfterLoad cat sales elapsed =
      { exitCode := 1
        console := ["ValueError: Price catalogue JSON must be a list of product objects."]
        written := none } := by
  cases cat with
  | arr xs => exact absurd rfl (h xs)
  | null => rfl
  | bool b => rfl
  | num q => rfl
  | str s => rfl
  | obj fields => rfl

/-- C3 witness: a concrete non-array catalogue (an object). -/
theorem claim_C3_witness :
    mainAfterLoad (Json.obj []) (Json.arr []) 0 =
      { exitCode := 1
        console := ["ValueError: Price catalogue JSON must be a list of product objects."]
        written := none } :=
  claim_C3_nonarray_catalogue_fatal (Json.obj []) (Json.arr []) 0
    (fun _ hx => Json.noConfusion hx)

/-- C4: a sales row whose quantity coerces to a non-positive number is
accepted by `parse_sale_line`, and when its product is priced it
contributes `unit_price × quantity` (negative for a negative quantity) to
the total. -/
theorem claim_C4_negative_quantity_accepted (fields : List (String × Json)) (i : Nat)
    (p : String) (q : Rat) (hprod : dictGet fields "Product" = .str p)
    (hne : pyStrip p ≠ "") (hq : pyFloat (dictGet fields "Quantity") = .ok q)
    (_hneg : q ≤ 0) :
    (∃ s, rowSale (.obj fields) i = some s ∧ s.quantity = q ∧ s.product = pyStrip p) ∧
    ∀ (prices : PriceMap) (up : Rat), mapFind prices (pyStrip p) = some up →
      rowContribution prices (.obj fields) i = up * q := by
  have hsucc := parseRes_success fields i p q hprod hne hq
  constructor
  · refine ⟨⟨safe_str (dictGetD fields "SALE_ID" (.str "N/A")),
      safe_str (dictGetD fields "SALE_Date" (.str "N/A")), pyStrip p, q⟩, ?_, rfl, rfl⟩
    simp [rowSale, hsucc]
  · intro prices up hup
    simp [rowContribution, rowSale, hsucc, hup]

/-- C4 witness: quantity −2 of a product priced 3 is accepted and
contributes −6. -/
theorem claim_C4_witness :
    (∃ s, rowSale (Json.obj [("Product", Json.str "Widget"), ("Quantity", Json.num (-2))]) 1 =
        some s ∧ s.quantity = -2 ∧ s.product = pyStrip "Widget") ∧
    rowContribution [("Widget", 3)]
      (Json.obj [("Product", Json.str "Widget"), ("Quantity", Json.num (-2))]) 1 = 3 * (-2) := by
  obtain ⟨h1, h2⟩ := claim_C4_negative_quantity_accepted
    [("Product", Json.str "Widget"), ("Quantity", Json.num (-2))] 1 "Widget" (-2)
    rfl (by decide) rfl (by norm_num)
  exact ⟨h1, h2 [("Widget", 3)] 3 (by decide)⟩

/-- C5: `write_results` emits exactly the header pair, the detail lines
verbatim, a blank line, the two-decimal total and the six-decimal elapsed
time, and sends the identical line sequence to standard output and to
`SalesResults.txt`. -/
theorem claim_C5_report_layout (total : Rat) (details : List String) (elapsed : Rat) :
    (write_results total details elapsed).stdout =
      "SALES SUMMARY" :: "=============" ::
        (details ++ [""] ++ ["TOTAL_COST: " ++ formatFixed 2 total]
          ++ ["ELAPSED_SECONDS: " ++ formatFixed 6 elapsed]) ∧
    (write_results total details elapsed).fileLines =
      (write_results total details elapsed).stdout := by
  refine ⟨?_, rfl⟩
  simp [write_results]

/-- C6: the price map binds each trimmed title to the coerced price of the
last valid catalogue row carrying it, and an all-valid catalogue (in
particular one whose only flaw is duplicate titles) prints no
diagnostic. -/
theorem claim_C6_last_title_wins (cat : List Json) (t : String) :
    mapFind (bpmOf cat).1 t = lastPrice cat t ∧
    ((∀ r ∈ cat, (catRow r).isSome) → (bpmOf cat).2 = []) := by
  constructor
  · rw [bpmOf_eq]
    simp only
    rw [mapFind_specInsertAll]
    cases hl : lastPrice cat t <;> simp [mapFind_nil]
  · intro h
    rw [bpmOf_eq]
    exact specCatConsole_of_valid cat 1 h

/-- C6 witness: two valid rows titled `A` priced 1 then 2; the map holds 2
and nothing is printed. -/
theorem claim_C6_witness :
    mapFind (bpmOf [Json.obj [("title", Json.str "A"), ("price", Json.num 1)],
                    Json.obj [("title", Json.str "A"), ("price", Json.num 2)]]).1 "A" =
      some 2 ∧
    (bpmOf [Json.obj [("title", Json.str "A"), ("price", Json.num 1)],
            Json.obj [("title", Json.str "A"), ("price", Json.num 2)]]).2 = [] := by
  obtain ⟨h1, h2⟩ := claim_C6_last_title_wins
    [Json.obj [("title", Json.str "A"), ("price", Json.num 1)],
     Json.obj [("title", Json.str "A"), ("price", Json.num 2)]] "A"
  refine ⟨?_, h2 (by decide)⟩
  rw [h1]
  decide

/-- C7: with an empty catalogue the total is 0 (formatted `0.00`), no detail
line beyond the valid-row count is produced, and every row passing
row-level validation yields an unknown-product diagnostic on the
console. -/
theorem claim_C7_empty_catalogue (rows : List Json) :
    (ctResult (bpmOf []).1 rows).1 = 0 ∧
    formatFixed 2 (ctResult (bpmOf []).1 rows).1 = "0.00" ∧
    (ctResult (bpmOf []).1 rows).2.1 = [validRowsLine (specValidCount rows 1)] ∧
    ∀ (j : Nat) (x : Json) (s : SaleLine), rows[j]? = some x →
      rowSale x (1 + j) = some s →
      msgNotFound (1 + j) s.product ∈ (ctResult (bpmOf []).1 rows).2.2 := by
  have hb : (bpmOf []).1 = ([] : PriceMap) := rfl
  rw [hb, ctResult_eq]
  refine ⟨specTotal_nil_prices rows 1, ?_, ?_, ?_⟩
  · show formatFixed 2 (specTotal [] rows 1) = "0.00"
    rw [specTotal_nil_prices rows 1]
    decide
  · show validRowsLine (specValidCount rows 1) :: specDetails [] rows 1 =
      [validRowsLine (specValidCount rows 1)]
    rw [specDetails_nil_prices rows 1]
  · intro j x s hx hs
    show msgNotFound (1 + j) s.product ∈ specConsole [] rows 1
    refine rowConsole_subset_specConsole [] rows 1 j x hx _ ?_
    simp [rowConsole, hs, mapFind_nil]

/-- C7 witness: one individually valid sales row against the empty
catalogue: total 0, and its unknown-product diagnostic is emitted. -/
theorem claim_C7_witness :
    (ctResult (bpmOf []).1 [Json.obj [("Product", Json.str "W"), ("Quantity", Json.num 1)]]).1 =
      0 ∧
    msgNotFound 1 "W" ∈
      (ctResult (bpmOf []).1
        [Json.obj [("Product", Json.str "W"), ("Quantity", Json.num 1)]]).2.2 := by
  obtain ⟨h1, -, -, h4⟩ :=
    claim_C7_empty_catalogue [Json.obj [("Product", Json.str "W"), ("Quantity", Json.num 1)]]
  refine ⟨h1, ?_⟩
  have h := h4 0 (Json.obj [("Product", Json.str "W"), ("Quantity", Json.num 1)])
    ⟨"N/A", "N/A", "W", 1⟩ rfl (by decide)
  simpa using h

/-- C8: two runs on identical catalogue and sales inputs agree on exit code
and on every report line except the final `ELAPSED_SECONDS` one;
`build_price_map` and `compute_total` are deterministic functions, so only
the elapsed-time argument can differ. -/
theorem claim_C8_deterministic_report (cat sales : Json) (e1 e2 : Rat) :
    (mainAfterLoad cat sales e1).exitCode = (mainAfterLoad cat sales e2).exitCode ∧
    (mainAfterLoad cat sales e1).written.map List.dropLast =
      (mainAfterLoad cat sales e2).written.map List.dropLast ∧
    ∀ ls, (mainAfterLoad cat sales e1).written = some ls →
      ls.getLast? = some ("ELAPSED_SECONDS: " ++ formatFixed 6 e1) := by
  cases hb : build_price_map cat with
  | error e => simp [mainAfterLoad, hb]
  | ok pr =>
    rcases pr with ⟨prices, catConsole⟩
    cases hc : compute_total prices sales with
    | error e => cases e <;> simp [mainAfterLoad, hb, hc]
    | ok res =>
      rcases res with ⟨total, details, salesConsole⟩
      refine ⟨by simp [mainAfterLoad, hb, hc], ?_, ?_⟩
      · simp only [mainAfterLoad, hb, hc]
        rw [Option.map_some', Option.map_some', written_dropLast total details e1,
          written_dropLast total details e2]
      · intro ls hls
        simp only [mainAfterLoad, hb, hc, write_results, Option.some.injEq] at hls
        rw [← hls]
        exact List.getLast?_concat _

/-- C8 witness: a concrete run compared at two elapsed times. -/
theorem claim_C8_witness :
    (mainAfterLoad (Json.arr []) (Json.arr []) 1).written.map List.dropLast =
      (mainAfterLoad (Json.arr []) (Json.arr []) 2).written.map List.dropLast ∧
    ∀ ls, (mainAfterLoad (Json.arr []) (Json.arr []) 1).written = some ls →
      ls.getLast? = some ("ELAPSED_SECONDS: " ++ formatFixed 6 1) := by
  obtain ⟨-, h2, h3⟩ := claim_C8_deterministic_report (Json.arr []) (Json.arr []) 1 2
  exact ⟨h2, h3⟩

/-- `float(value)` with the integer `OverflowError` path modelled:
`json.load` parses a JSON integer literal to an arbitrary-precision Python
`int`, and `float()` on an integer whose magnitude reaches `2 ^ 1024`
(beyond double range) raises `OverflowError` — neither a `TypeError` nor a
`ValueError`.  A JSON float literal is a finite double, always below that
bound, so only integer-derived values (denominator 1) can overflow; every
other case is as in `pyFloat`. -/
def pyFloatChecked (j : Json) : Except PyExc Rat :=
  match j with
  | .num q =>
    if q.den = 1 ∧ 2 ^ 1024 ≤ q.num.natAbs then
      .error (.overflowError "int too large to convert to float")
    else .ok q
  | j' => pyFloat j'

/-- `parse_sale_line` under the faithful coercion: the same translation of
`parse_sale_line(raw, row_num)` as above, differing only in using
`pyFloatChecked` for the two `float(quantity)` blocks. -/
def parse_sale_line_checked (raw : Json) (row_num : Nat) :
    Except PyExc (Option SaleLine × List String) :=
  match raw with
  | .obj fields =>
    let product := dictGet fields "Product"
    let quantity := dictGet fields "Quantity"
    match product with
    | .str p =>
      if pyStrip p = "" then .ok (none, [msgSaleBadProduct row_num])
      else
        match pyFloatChecked quantity with
        | .error e =>
          if e.isTVE then .ok (none, [msgSaleBadQty row_num p quantity]) else .error e
        | .ok _ =>
          match pyFloatChecked quantity with
          | .error e =>
            if e.isTVE then .ok (none, [msgSaleBadQty row_num p quantity]) else .error e
          | .ok qty =>
            let sale_id := safe_str (dictGetD fields "SALE_ID" (.str "N/A"))
            let sale_date := safe_str (dictGetD fields "SALE_Date" (.str "N/A"))
            .ok (some ⟨sale_id, sale_date, pyStrip p, qty⟩, [])
    | _ => .ok (none, [msgSaleBadProduct row_num])
  | _ => .ok (none, [msgSaleNotObject row_num])

/-- The faithful coercion agrees with the idealized one except on the
overflow path. -/
theorem pyFloatChecked_eq_or_overflow (j : Json) :
    pyFloatChecked j = pyFloat j ∨
    pyFloatChecked j = .error (.overflowError "int too large to convert to float") := by
  cases j with
  | num q =>
    by_cases h : q.den = 1 ∧ 2 ^ 1024 ≤ q.num.natAbs
    · exact .inr (by simp [pyFloatChecked, h])
    · exact .inl (by simp [pyFloatChecked, pyFloat, h])
  | null => exact .inl rfl
  | bool b => exact .inl rfl
  | str s => exact .inl rfl
  | arr xs => exact .inl rfl
  | obj fs => exact .inl rfl

/-- The faithful coercion succeeds, fails with a caught class, or fails
with `OverflowError`. -/
theorem pyFloatChecked_cases (j : Json) :
    (∃ q, pyFloatChecked j = .ok q) ∨
    (∃ e, pyFloatChecked j = .error e ∧ e.isTVE = true) ∨
    ∃ m, pyFloatChecked j = .error (.overflowError m) := by
  rcases pyFloatChecked_eq_or_overflow j with h | h
  · rw [h]
    rcases pyFloat_ok_or_tve j with ⟨q, hq⟩ | ⟨e, he, htve⟩
    · exact .inl ⟨q, hq⟩
    · exact .inr (.inl ⟨e, he, htve⟩)
  · exact .inr (.inr ⟨"int too large to convert to float", h⟩)

/-- Under the faithful coercion, `parse_sale_line` either returns `ok` or
propagates exactly an `OverflowError`. -/
theorem parse_sale_line_checked_cases (raw : Json) (i : Nat) :
    (∃ r, parse_sale_line_checked raw i = .ok r) ∨
    ∃ m, parse_sale_line_checked raw i = .error (.overflowError m) := by
  cases raw with
  | obj fields =>
    cases hprod : dictGet fields "Product" with
    | str p =>
      by_cases hp : pyStrip p = ""
      · exact .inl ⟨(none, [msgSaleBadProduct i]),
          by simp [parse_sale_line_checked, hprod, hp]⟩
      · rcases pyFloatChecked_cases (dictGet fields "Quantity") with
          ⟨q, hq⟩ | ⟨e, he, htve⟩ | ⟨m, hm⟩
        · exact .inl ⟨(some ⟨safe_str (dictGetD fields "SALE_ID" (.str "N/A")),
            safe_str (dictGetD fields "SALE_Date" (.str "N/A")), pyStrip p, q⟩, []),
            by simp [parse_sale_line_checked, hprod, hp, hq]⟩
        · exact .inl ⟨(none, [msgSaleBadQty i p (dictGet fields "Quantity")]),
            by simp [parse_sale_line_checked, hprod, hp, he, htve]⟩
        · exact .inr ⟨m, by simp [parse_sale_line_checked, hprod, hp, hm, PyExc.isTVE]⟩
    | null => exact .inl ⟨(none, [msgSaleBadProduct i]),
        by simp [parse_sale_line_checked, hprod]⟩
    | bool b => exact .inl ⟨(none, [msgSaleBadProduct i]),
        by simp [parse_sale_line_checked, hprod]⟩
    | num q => exact .inl ⟨(none, [msgSaleBadProduct i]),
        by simp [parse_sale_line_checked, hprod]⟩
    | arr xs => exact .inl ⟨(none, [msgSaleBadProduct i]),
        by simp [parse_sale_line_checked, hprod]⟩
    | obj fs => exact .inl ⟨(none, [msgSaleBadProduct i]),
        by simp [parse_sale_line_checked, hprod]⟩
  | null => exact .inl ⟨(none, [msgSaleNotObject i]), rfl⟩
  | bool b => exact .inl ⟨(none, [msgSaleNotObject i]), rfl⟩
  | num q => exact .inl ⟨(none, [msgSaleNotObject i]), rfl⟩
  | str s => exact .inl ⟨(none, [msgSaleNotObject i]), rfl⟩
  | arr xs => exact .inl ⟨(none, [msgSaleNotObject i]), rfl⟩

/-- The JSON integer `10 ^ 400`, an exact rational beyond double range. -/
def bigInt400 : Rat :=
  { num := 10 ^ 400, den := 1, den_nz := Nat.one_ne_zero, reduced := Nat.coprime_one_right _ }

/-- C9 counterexample: on a sales row whose `Quantity` is the JSON integer
`10 ^ 400`, `float()` raises `OverflowError`, which
`except (TypeError, ValueError)` does not catch, so `parse_sale_line`
propagates the exception instead of returning a `SaleLine` or `None`:
the claim that it never raises is false. -/
theorem claim_C9_counterexample :
    parse_sale_line_checked
      (Json.obj [("Product", Json.str "W"), ("Quantity", Json.num bigInt400)]) 1 =
      .error (.overflowError "int too large to convert to float") ∧
    (PyExc.overflowError "int too large to convert to float").isTVE = false := by
  have hq : pyFloatChecked (Json.num bigInt400) =
      .error (.overflowError "int too large to convert to float") := by
    have hcond : bigInt400.den = 1 ∧ 2 ^ 1024 ≤ bigInt400.num.natAbs := by
      refine ⟨rfl, ?_⟩
      show (2 : Nat) ^ 1024 ≤ ((10 : Int) ^ 400).natAbs
      rw [Int.natAbs_pow]
      show (2 : Nat) ^ 1024 ≤ 10 ^ 400
      calc (2 : Nat) ^ 1024 ≤ 2 ^ 1200 :=
            Nat.pow_le_pow_right (by norm_num) (by norm_num)
        _ = (2 ^ 3) ^ 400 := by rw [← Nat.pow_mul]
        _ ≤ 10 ^ 400 := Nat.pow_le_pow_left (by norm_num) 400
    simp [pyFloatChecked, hcond]
  constructor
  · have hprod : dictGet [("Product", Json.str "W"), ("Quantity", Json.num bigInt400)]
        "Product" = Json.str "W" := rfl
    have hquant : dictGet [("Product", Json.str "W"), ("Quantity", Json.num bigInt400)]
        "Quantity" = Json.num bigInt400 := rfl
    have hne : ¬pyStrip "W" = "" := by decide
    simp [parse_sale_line_checked, hprod, hquant, hq, PyExc.isTVE, hne]
  · rfl

/-- C9 (amended): `parse_sale_line` returns `ok` (a `SaleLine` or `None`)
unless `float()` overflows: on a JSON-derived value `float()` raises only
`TypeError` or `ValueError` — exactly the classes the `except` clauses
catch — or, for a JSON integer beyond double range, `OverflowError`, which
they do not catch and which `parse_sale_line` therefore propagates. -/
theorem claim_C9_total_unless_overflow :
    (∀ j : Json, (∃ q, pyFloatChecked j = .ok q) ∨
      (∃ e, pyFloatChecked j = .error e ∧ e.isTVE = true) ∨
      ∃ m, pyFloatChecked j = .error (.overflowError m)) ∧
    ∀ (raw : Json) (i : Nat),
      (∃ r, parse_sale_line_checked raw i = .ok r) ∨
      ∃ m, parse_sale_line_checked raw i = .error (.overflowError m) :=
  ⟨pyFloatChecked_cases, parse_sale_line_checked_cases⟩

/-- C10: when `SALE_ID` (or `SALE_Date`) is present with JSON `null`, the
parsed field is the string `None`; the default `N/A` applies only when the
key is absent. -/
theorem claim_C10_null_vs_absent (fields : List (String × Json)) (i : Nat)
    (s : SaleLine) (msgs : List String)
    (h : parseRes (.obj fields) i = (some s, msgs)) :
    (fieldLookup fields "SALE_ID" = some .null → s.sale_id = "None") ∧
    (fieldLookup fields "SALE_ID" = none → s.sale_id = "N/A") ∧
    (fieldLookup fields "SALE_Date" = some .null → s.sale_date = "None") ∧
    (fieldLookup fields "SALE_Date" = none → s.sale_date = "N/A") := by
  obtain ⟨hid, hdate⟩ := parseRes_some_fields fields i s msgs h
  refine ⟨fun hl => ?_, fun hl => ?_, fun hl => ?_, fun hl => ?_⟩
  · rw [hid]; simp [dictGetD, hl, safe_str, pyStr]
  · rw [hid]; simp [dictGetD, hl, safe_str, pyStr]
  · rw [hdate]; simp [dictGetD, hl, safe_str, pyStr]
  · rw [hdate]; simp [dictGetD, hl, safe_str, pyStr]

/-- C10 witness: a row with `SALE_ID: null` and no `SALE_Date` parses with
`sale_id = "None"` and `sale_date = "N/A"`. -/
theorem claim_C10_witness :
    parseRes (Json.obj [("Product", Json.str "W"), ("Quantity", Json.num 1),
        ("SALE_ID", Json.null)]) 1 = (some ⟨"None", "N/A", "W", 1⟩, []) ∧
    (⟨"None", "N/A", "W", 1⟩ : SaleLine).sale_id = "None" ∧
    (⟨"None", "N/A", "W", 1⟩ : SaleLine).sale_date = "N/A" := by
  have h : parseRes (Json.obj [("Product", Json.str "W"), ("Quantity", Json.num 1),
      ("SALE_ID", Json.null)]) 1 = (some ⟨"None", "N/A", "W", 1⟩, []) := by decide
  obtain ⟨h1, -, -, h4⟩ := claim_C10_null_vs_absent _ 1 _ _ h
  exact ⟨h, h1 rfl, h4 rfl⟩

end ComputeSales
